import Mathlib

/-!
Verification development for the audio-denoising library: a shallow
embedding in Lean 4 of src/denoise.ts and src/hooks/useAudioDenoiser.ts.

Floating-point samples (Float32Array entries) are embedded as rationals:
every claim below is about clipping, scaling, buffer structure and
control flow, none about IEEE-754 rounding.  Raw binary buffers are
embedded as lists of byte values (natural numbers below 256).  External
collaborators (the WASM engine loader, the platform audio decoder, the
audio context) are parameters of the embedded functions, since the
repository treats them as opaque.
-/

namespace Denoise

/-! ## The ready() lazy-initialization state machine (denoise.ts lines 84-106)

The denoise function object carries three mutable fields:
  _processor : DenoiseProcessor | null
  _ready : boolean
  _readyPromise : Promise<void> | null
ready() returns Promise.resolve() when _ready is set; otherwise it
memoizes a single call of _initialize() in _readyPromise and returns it.
_initialize() awaits the loader and, on success, sets _processor and
_ready := true; if the loader rejects, the promise stored in
_readyPromise stays rejected and _ready stays false.

We embed this as a state machine driven by two events: a synchronous
ready() call, and the settlement (success or failure) of the in-flight
initialization.  Promise identities are numbered by the order in which
_initialize is invoked, so the number of loader invocations is exactly
the number of promise ids ever created, tracked in initCount. -/

/-- Settlement state of the memoized initialization promise. -/
inductive InitStatus where
  | notStarted : InitStatus
  | pending : InitStatus
  | succeeded : InitStatus
  | failed (msg : String) : InitStatus
deriving DecidableEq, Repr

/-- The mutable fields of the denoise function object, plus an
instrumentation counter initCount recording how many times the engine
loader (_initialize, hence loadWasm) has been invoked. -/
structure ReadyState where
  ready : Bool
  readyPromise : Option Nat
  initStatus : InitStatus
  initCount : Nat
deriving DecidableEq, Repr

/-- Initial state of the fields from denoise.ts lines 85-87: _processor
null, _ready false, _readyPromise null. -/
def initialReadyState : ReadyState :=
  { ready := false, readyPromise := none, initStatus := .notStarted, initCount := 0 }

/-- What a single ready() call returns to its caller: an immediately
resolved fresh promise, or the memoized initialization promise with the
given id. -/
inductive ReadyResult where
  | resolvedNow : ReadyResult
  | promise (id : Nat) : ReadyResult
deriving DecidableEq, Repr

/-- denoise.ready(), lines 89-99: if _ready, return Promise.resolve();
if _readyPromise is unset, set it to a fresh _initialize() invocation
(new promise id, loader invoked once more, settlement pending); return
_readyPromise. -/
def readyCall (s : ReadyState) : ReadyResult × ReadyState :=
  if s.ready then
    (.resolvedNow, s)
  else
    match s.readyPromise with
    | some p => (.promise p, s)
    | none =>
        (.promise s.initCount,
          { s with readyPromise := some s.initCount,
                   initStatus := .pending,
                   initCount := s.initCount + 1 })

/-- Settlement of the in-flight _initialize() promise (lines 101-105):
on success the processor is installed and _ready becomes true; on
failure the stored promise becomes rejected with the loader error and
_ready stays false.  Settlement only applies to a pending promise. -/
def initSettle (ok : Bool) (msg : String) (s : ReadyState) : ReadyState :=
  if s.initStatus = .pending then
    if ok then { s with ready := true, initStatus := .succeeded }
    else { s with initStatus := .failed msg }
  else s

/-- An event of an execution: a ready() call, or the settlement of the
initialization promise. -/
inductive REvent where
  | call : REvent
  | settle (ok : Bool) (msg : String) : REvent
deriving DecidableEq, Repr

/-- One step of the event machine, collecting the result returned to
the caller on call events. -/
def readyStep (acc : ReadyState × List ReadyResult) (e : REvent) :
    ReadyState × List ReadyResult :=
  match e with
  | .call =>
      let (r, s) := readyCall acc.1
      (s, acc.2 ++ [r])
  | .settle ok msg => (initSettle ok msg acc.1, acc.2)

/-- Run a whole sequence of events from the initial state, returning
the final state and the list of results handed to ready() callers. -/
def runReady (evs : List REvent) : ReadyState × List ReadyResult :=
  evs.foldl readyStep (initialReadyState, [])

/-! ## The denoise pipeline (denoise.ts lines 11-82) -/

/-- The returnType option values of DenoiseOptions (line 5). -/
inductive ReturnType where
  | arraybuffer : ReturnType
  | blob : ReturnType
  | float32array : ReturnType
deriving DecidableEq, Repr

/-- DenoiseOptions (lines 3-8).  The model field carries opaque engine
bytes that the repository only forwards to the external engine, so it
is not represented. -/
structure DenoiseOptions where
  sampleRate : Option Nat := none
  returnType : Option ReturnType := none
  duration : Option Nat := none
deriving DecidableEq, Repr

/-- JavaScript x || d on an optional number: both undefined and 0 are
falsy, so they fall back to the default. -/
def jsOrNat : Option Nat → Nat → Nat
  | none, d => d
  | some v, d => if v = 0 then d else v

/-- The sample-count target of captureStreamAudio (line 157):
Math.floor((duration / 1000) * sampleRate), computed exactly.  Natural
division by 1000 agrees with that floor; the C5 theorem states the
agreement explicitly. -/
def targetSampleCount (duration sampleRate : Nat) : Nat :=
  duration * sampleRate / 1000

/-- The onaudioprocess accumulation loop of captureStreamAudio (lines
160-181), driven by the list of fixed-size frames the platform will
deliver to the script processor.  Each event pushes a copy of the
frame and adds its length to the running total; once the total reaches
the target, all accumulated chunks are concatenated in order and the
promise resolves with result.slice(0, targetSamples).  If the frames
run out before the target is met the promise never resolves, embedded
as none. -/
def captureLoop (target : Nat) :
    List (List ℚ) → List (List ℚ) → Nat → Option (List ℚ)
  | [], _, _ => none
  | f :: rest, chunks, total =>
      let chunks2 := chunks ++ [f]
      let total2 := total + f.length
      if target ≤ total2 then
        some ((chunks2.flatten).take target)
      else
        captureLoop target rest chunks2 total2

/-- captureStreamAudio (lines 147-186): the audio context created for
the capture has the ambient platform sample rate ctxSampleRate. -/
def captureStreamAudio (frames : List (List ℚ)) (duration ctxSampleRate : Nat) :
    Option (List ℚ) :=
  captureLoop (targetSampleCount duration ctxSampleRate) frames [] 0

/-- Decidable equality for Except values, used to derive it for the
input shape type below. -/
instance exceptDecEq {ε α : Type} [DecidableEq ε] [DecidableEq α] :
    DecidableEq (Except ε α) := fun x y =>
  match x, y with
  | .error a, .error b =>
      if h : a = b then isTrue (by rw [h])
      else isFalse (by intro hc; cases hc; exact h rfl)
  | .error _, .ok _ => isFalse (by intro hc; cases hc)
  | .ok _, .error _ => isFalse (by intro hc; cases hc)
  | .ok a, .ok b =>
      if h : a = b then isTrue (by rw [h])
      else isFalse (by intro hc; cases hc; exact h rfl)

/-- The possible shapes of the denoise input (line 13), plus the two
rejected ones.  A raw ArrayBuffer is viewed by the code as a
Float32Array over the same memory (line 30); the buffer is embedded by
the sample list that view denotes.  A Blob or File holds opaque bytes
whose decoding the platform performs (decodeAudioData, lines 33-49):
it is embedded by the outcome of that decode, channel 0 samples plus
the decoded sample rate on success, or the decoder error message on
failure.  A MediaStream is embedded by the fixed-size frames the
platform delivers during capture.  nullish stands for null or
undefined, unsupportedValue for any value of none of the four shapes. -/
inductive DenoiseInput where
  | arrayBuffer (samples : List ℚ) : DenoiseInput
  | float32Array (samples : List ℚ) : DenoiseInput
  | blobOrFile (decoded : Except String (List ℚ × Nat)) : DenoiseInput
  | mediaStream (frames : List (List ℚ)) : DenoiseInput
  | nullish : DenoiseInput
  | unsupportedValue : DenoiseInput
deriving DecidableEq, Repr

/-- The three result shapes of denoise (line 15): the raw buffer
returned by the engine, a WAV Blob of bytes, or a Float32Array copy of
the engine output. -/
inductive DenoiseOutput where
  | arrayBuffer (samples : List ℚ) : DenoiseOutput
  | blob (bytes : List Nat) : DenoiseOutput
  | float32Array (samples : List ℚ) : DenoiseOutput
deriving DecidableEq, Repr

/-- Math.max(-1, Math.min(1, sample)) (line 139). -/
def clipSample (x : ℚ) : ℚ := max (-1) (min 1 x)

/-- Truncation toward zero, which JavaScript ToInt16 applies to the
number sample * 0x7FFF before the 16-bit store (line 140); the clipped
value is always within int16 range, so no wrapping occurs. -/
def truncToward0 (q : ℚ) : Int := if 0 ≤ q then ⌊q⌋ else -⌊-q⌋

/-- DataView.setInt16 with littleEndian true: the two stored bytes. -/
def int16LE (v : Int) : List Nat :=
  let u := (v % 65536).toNat
  [u % 256, u / 256]

/-- DataView.setUint32 with littleEndian true: the four stored bytes. -/
def uint32LE (v : Nat) : List Nat :=
  let u := v % 4294967296
  [u % 256, u / 256 % 256, u / 65536 % 256, u / 16777216 % 256]

/-- DataView.setUint16 with littleEndian true: the two stored bytes. -/
def uint16LE (v : Nat) : List Nat :=
  let u := v % 65536
  [u % 256, u / 256]

/-- ASCII codes written by writeString(0, RIFF) (line 122). -/
def asciiRIFF : List Nat := [82, 73, 70, 70]

/-- ASCII codes written by writeString(8, WAVE) (line 124). -/
def asciiWAVE : List Nat := [87, 65, 86, 69]

/-- ASCII codes of the fmt chunk tag written at offset 12 (line 125). -/
def asciiFmt : List Nat := [102, 109, 116, 32]

/-- ASCII codes of the data chunk tag written at offset 36 (line 133). -/
def asciiData : List Nat := [100, 97, 116, 97]

/-- The 44-byte WAV header written by createWavFile (lines 122-134)
for n samples at the given sample rate, in offset order: RIFF tag,
chunk size 36 + n * 2, WAVE tag, fmt tag, fmt chunk size 16, PCM
format 1, mono 1, sample rate, byte rate, block align 2, bits per
sample 16, data tag, data size n * 2. -/
def wavHeader (n sampleRate : Nat) : List Nat :=
  asciiRIFF ++ uint32LE (36 + n * 2) ++ asciiWAVE ++ asciiFmt ++
  uint32LE 16 ++ uint16LE 1 ++ uint16LE 1 ++ uint32LE sampleRate ++
  uint32LE (sampleRate * 2) ++ uint16LE 2 ++ uint16LE 16 ++ asciiData ++
  uint32LE (n * 2)

/-- createWavFile (lines 110-144): the header followed by, for each
sample in order, the two little-endian bytes of the 16-bit store of
the clipped sample scaled by 0x7FFF (lines 137-141). -/
def createWavFile (audioData : List ℚ) (sampleRate : Nat) : List Nat :=
  wavHeader audioData.length sampleRate ++
  (audioData.map fun s => int16LE (truncToward0 (clipSample s * 32767))).flatten

/-- Input normalization (lines 24-54), reached after the null check
and the ready await: produces the Float32Array audioData together with
the sampleRate local, which starts as options.sampleRate (line 26) and
is overwritten with the decoded sample rate for a Blob or File (line
40).  A decode failure is wrapped (line 48).  For a MediaStream the
capture may never resolve, embedded as none.  The nullish and
unsupported cases carry the errors thrown by the surrounding code so
that this function is total; denoiseRun raises the nullish error
before ever calling it. -/
def normalizeInput (input : DenoiseInput) (options : DenoiseOptions)
    (ctxSampleRate : Nat) : Option (Except String (List ℚ × Option Nat)) :=
  match input with
  | .arrayBuffer samples => some (.ok (samples, options.sampleRate))
  | .float32Array samples => some (.ok (samples, options.sampleRate))
  | .blobOrFile (.ok (samples, sr)) => some (.ok (samples, some sr))
  | .blobOrFile (.error e) =>
      some (.error ("Failed to decode audio file: " ++ e))
  | .mediaStream frames =>
      match captureStreamAudio frames (jsOrNat options.duration 5000) ctxSampleRate with
      | none => none
      | some samples => some (.ok (samples, options.sampleRate))
  | .nullish => some (.error "Invalid input: input cannot be null or undefined")
  | .unsupportedValue => some (.error "Invalid input type")

/-- The denoise entry point (lines 12-82).  initOutcome is what
awaiting denoise.ready() (line 22) yields: ok once initialization has
succeeded, or the loader error of the rejected memoized promise.
processorFn is denoise._processor as read at line 62: none embeds the
defensive null check of line 63, some f the opaque engine transform of
line 67 (the engine is external, so its dependence on the forwarded
options is folded into f).  ctxSampleRate is the ambient sample rate
of the AudioContext used for capture.  The overall result is none when
the call never settles. -/
def denoiseRun (initOutcome : Except String Unit)
    (processorFn : Option (List ℚ → List ℚ))
    (ctxSampleRate : Nat)
    (input : DenoiseInput) (options : DenoiseOptions) :
    Option (Except String DenoiseOutput) :=
  if input = .nullish then
    some (.error "Invalid input: input cannot be null or undefined")
  else
    match initOutcome with
    | .error m => some (.error m)
    | .ok _ =>
        match normalizeInput input options ctxSampleRate with
        | none => none
        | some (.error e) => some (.error e)
        | some (.ok (audioData, sampleRate)) =>
            if audioData.length = 0 then
              some (.error "Audio data is empty")
            else
              match processorFn with
              | none => some (.error "Denoise processor not initialized")
              | some process =>
                  let denoised := process audioData
                  match options.returnType with
                  | some .blob =>
                      some (.ok (.blob
                        (createWavFile denoised (jsOrNat sampleRate 48000))))
                  | some .float32array => some (.ok (.float32Array denoised))
                  | _ => some (.ok (.arrayBuffer denoised))

/-! ## The useAudioDenoiser hook (useAudioDenoiser.ts) -/

/-- Content of an ArrayBuffer as the hook returns it: the backing
float bytes of a Float32Array or raw engine buffer, or the plain bytes
read out of a Blob. -/
inductive BufferContent where
  | floatBytes (samples : List ℚ) : BufferContent
  | rawBytes (bytes : List Nat) : BufferContent
deriving DecidableEq, Repr

/-- denoiseAudio (useAudioDenoiser.ts lines 69-102): run denoise, then
return the result as an ArrayBuffer: an ArrayBuffer as is, a Blob via
blob.arrayBuffer(), a Float32Array via its backing result.buffer. -/
def denoiseAudio (initOutcome : Except String Unit)
    (processorFn : Option (List ℚ → List ℚ))
    (ctxSampleRate : Nat)
    (input : DenoiseInput) (options : DenoiseOptions) :
    Option (Except String BufferContent) :=
  match denoiseRun initOutcome processorFn ctxSampleRate input options with
  | none => none
  | some (.error e) => some (.error e)
  | some (.ok r) =>
      match r with
      | .arrayBuffer s => some (.ok (.floatBytes s))
      | .blob b => some (.ok (.rawBytes b))
      | .float32Array s => some (.ok (.floatBytes s))

/-- Stated from the claim, for comparison with denoiseAudio: the
underlying raw buffer of each result representation of the underlying
operation. -/
def specUnderlyingBuffer : DenoiseOutput → BufferContent
  | .arrayBuffer s => .floatBytes s
  | .blob b => .rawBytes b
  | .float32Array s => .floatBytes s

/-- Stated from the amended C6 claim, for comparison with the header
field written by denoiseRun: the source of the effective sample rate
of a produced WAV header, namely the decoded sample rate for a
successfully decoded Blob or File input and otherwise the
caller-supplied override. -/
def decodedOrOverrideRate (input : DenoiseInput) (options : DenoiseOptions) :
    Option Nat :=
  match input with
  | .blobOrFile (.ok (_, sr)) => some sr
  | _ => options.sampleRate

/-- Stated from the amended C6 claim, continued: the effective header
rate is the rate source above with fallback 48000 when absent or
zero. -/
def effectiveHeaderRate (input : DenoiseInput) (options : DenoiseOptions) : Nat :=
  jsOrNat (decodedOrOverrideRate input options) 48000

/-- Microphone lifecycle state of one hook instance.  Each stream is
the list of per-track counts of MediaStreamTrack.stop() invocations;
activeStream is the stream held in microphoneStreamRef.current, and
released collects streams no longer referenced by the ref (they remain
live platform objects, so their counters persist). -/
structure MicState where
  released : List (List Nat)
  activeStream : Option (List Nat)
deriving DecidableEq, Repr

/-- startMicrophone (useAudioDenoiser.ts lines 104-137) with
permission granted: getUserMedia hands a fresh stream of trackCount
tracks, none stopped yet, which is stored in
microphoneStreamRef.current (line 116); a previously stored stream is
silently dropped. -/
def startMicrophone (s : MicState) (trackCount : Nat) : MicState :=
  { released := s.released ++
      (match s.activeStream with
       | none => []
       | some tracks => [tracks]),
    activeStream := some (List.replicate trackCount 0) }

/-- stopMicrophone (lines 139-144): when a stream is stored, call
stop() on each of its tracks once and clear the ref; otherwise do
nothing. -/
def stopMicrophone (s : MicState) : MicState :=
  match s.activeStream with
  | none => s
  | some tracks =>
      { released := s.released ++ [tracks.map (· + 1)],
        activeStream := none }

/-- Invariant tying the fields together: the loader has run at most
once, the memoized promise (when present) is promise 0 created by the
single loader invocation, and the settlement status is consistent with
the counter and the ready flag. -/
def ReadyInv (s : ReadyState) : Prop :=
  s.initCount ≤ 1 ∧
  (s.readyPromise = none → s.initCount = 0 ∧ s.initStatus = .notStarted ∧ s.ready = false) ∧
  (∀ p, s.readyPromise = some p → p = 0 ∧ s.initCount = 1) ∧
  (s.ready = true → s.initStatus = .succeeded) ∧
  (∀ m, s.initStatus = .failed m → s.ready = false)

theorem readyInv_initial : ReadyInv initialReadyState := by
  refine ⟨by decide, by intro _; exact ⟨rfl, rfl, rfl⟩, ?_, ?_, ?_⟩
  · intro p h; simp [initialReadyState] at h
  · intro h; simp [initialReadyState] at h
  · intro m h; simp [initialReadyState] at h

theorem readyInv_step (s : ReadyState) (rs : List ReadyResult) (e : REvent)
    (h : ReadyInv s) : ReadyInv (readyStep (s, rs) e).1 := by
  obtain ⟨h1, h2, h3, h4, h5⟩ := h
  cases e with
  | call =>
      by_cases hr : s.ready
      · have hnew : (readyStep (s, rs) .call).1 = s := by
          simp [readyStep, readyCall, hr]
        rw [hnew]; exact ⟨h1, h2, h3, h4, h5⟩
      · cases hp : s.readyPromise with
        | some p =>
            have hnew : (readyStep (s, rs) .call).1 = s := by
              simp [readyStep, readyCall, hr, hp]
            rw [hnew]; exact ⟨h1, h2, h3, h4, h5⟩
        | none =>
            have hs0 : s.initCount = 0 := (h2 hp).1
            have hnew : (readyStep (s, rs) .call).1 =
                { s with readyPromise := some s.initCount,
                         initStatus := .pending,
                         initCount := s.initCount + 1 } := by
              simp [readyStep, readyCall, hr, hp]
            rw [hnew]
            refine ⟨by show s.initCount + 1 ≤ 1; omega, ?_, ?_, ?_, ?_⟩
            · intro hn; exact absurd hn (by simp)
            · intro p2 hpp
              have hps : s.initCount = p2 := Option.some.inj hpp
              refine ⟨by omega, ?_⟩
              show s.initCount + 1 = 1
              omega
            · intro hb; exact absurd hb hr
            · intro m hm; cases hm
  | settle ok msg =>
      by_cases hpend : s.initStatus = .pending
      · cases ok with
        | true =>
            have hnew : (readyStep (s, rs) (.settle true msg)).1 =
                { s with ready := true, initStatus := .succeeded } := by
              simp [readyStep, initSettle, hpend]
            rw [hnew]
            refine ⟨h1, ?_, ?_, ?_, ?_⟩
            · intro hn
              have h0 := h2 hn
              rw [h0.2.1] at hpend
              exact absurd hpend (by decide)
            · intro p hp; exact h3 p hp
            · intro _; rfl
            · intro m hm; cases hm
        | false =>
            have hnew : (readyStep (s, rs) (.settle false msg)).1 =
                { s with initStatus := .failed msg } := by
              simp [readyStep, initSettle, hpend]
            rw [hnew]
            refine ⟨h1, ?_, ?_, ?_, ?_⟩
            · intro hn
              have h0 := h2 hn
              rw [h0.2.1] at hpend
              exact absurd hpend (by decide)
            · intro p hp; exact h3 p hp
            · intro hb
              have hsucc := h4 hb
              rw [hpend] at hsucc
              exact absurd hsucc (by decide)
            · intro m _
              cases hb : s.ready with
              | false => rfl
              | true =>
                  have hsucc := h4 hb
                  rw [hpend] at hsucc
                  exact absurd hsucc (by decide)
      · have hnew : (readyStep (s, rs) (.settle ok msg)).1 = s := by
          simp [readyStep, initSettle, hpend]
        rw [hnew]; exact ⟨h1, h2, h3, h4, h5⟩

/-- Invariant on collected results: every promise handed to a ready()
caller is the one memoized promise 0. -/
def ResultsInv (rs : List ReadyResult) : Prop :=
  ∀ r ∈ rs, r = .resolvedNow ∨ r = .promise 0

theorem readyInv_run_aux (evs : List REvent) :
    ∀ s rs, ReadyInv s → ResultsInv rs →
      ReadyInv (evs.foldl readyStep (s, rs)).1 ∧
      ResultsInv (evs.foldl readyStep (s, rs)).2 := by
  induction evs with
  | nil => intro s rs hs hrs; exact ⟨hs, hrs⟩
  | cons e rest ih =>
      intro s rs hs hrs
      have hstep : ReadyInv (readyStep (s, rs) e).1 := readyInv_step s rs e hs
      have hres : ResultsInv (readyStep (s, rs) e).2 := by
        cases e with
        | call =>
            by_cases hr : s.ready
            · intro r hrmem
              simp [readyStep, readyCall, hr] at hrmem
              rcases hrmem with hrmem | hrmem
              · exact hrs r hrmem
              · left; exact hrmem
            · cases hp : s.readyPromise with
              | some p =>
                  intro r hrmem
                  simp [readyStep, readyCall, hr, hp] at hrmem
                  rcases hrmem with hrmem | hrmem
                  · exact hrs r hrmem
                  · right
                    rw [hrmem, (hs.2.2.1 p hp).1]
              | none =>
                  intro r hrmem
                  simp [readyStep, readyCall, hr, hp] at hrmem
                  rcases hrmem with hrmem | hrmem
                  · exact hrs r hrmem
                  · right
                    rw [hrmem, (hs.2.1 hp).1]
        | settle ok msg =>
            intro r hrmem
            simp [readyStep] at hrmem
            exact hrs r hrmem
      have := ih (readyStep (s, rs) e).1 (readyStep (s, rs) e).2 hstep hres
      simpa [List.foldl_cons] using this

theorem readyInv_run (evs : List REvent) :
    ReadyInv (runReady evs).1 ∧ ResultsInv (runReady evs).2 :=
  readyInv_run_aux evs initialReadyState [] readyInv_initial (by intro r h; cases h)


/-- C1: the ready operation performs at-most-once lazy initialization:
across any sequence of ready() calls interleaved with the settlement of
the initialization, the engine loader is invoked at most once, every
promise handed to a caller is the one memoized in-flight initialization
promise, and once initialization has completed a further ready() call
resolves immediately and leaves the state untouched. -/
theorem ready_lazy_init_at_most_once (evs : List REvent) :
    (runReady evs).1.initCount ≤ 1 ∧
    (∀ r ∈ (runReady evs).2, r = .resolvedNow ∨ r = .promise 0) ∧
    ((runReady evs).1.ready = true →
      readyCall (runReady evs).1 = (.resolvedNow, (runReady evs).1)) := by
  obtain ⟨hs, hr⟩ := readyInv_run evs
  refine ⟨hs.1, hr, ?_⟩
  intro h
  simp [readyCall, h]

theorem ready_lazy_init_at_most_once_witness :
    readyCall (runReady [.call, .settle true "", .call]).1 =
      (.resolvedNow, (runReady [.call, .settle true "", .call]).1) :=
  (ready_lazy_init_at_most_once [.call, .settle true "", .call]).2.2 (by decide)

/-- C9: a failed initialization is sticky: whenever the run has left
the initialization settled as failed, the ready flag is false, the
memoized promise is still the single rejected promise 0, the loader has
run exactly once, a further ready() call returns that same rejected
promise without changing the state, and every denoise call on a
non-null input fails with the same initialization error. -/
theorem failed_init_sticky (evs : List REvent) (m : String)
    (hf : (runReady evs).1.initStatus = .failed m) :
    (runReady evs).1.ready = false ∧
    (runReady evs).1.readyPromise = some 0 ∧
    (runReady evs).1.initCount = 1 ∧
    readyCall (runReady evs).1 = (.promise 0, (runReady evs).1) ∧
    (∀ processorFn ctxSampleRate input options,
      input ≠ DenoiseInput.nullish →
      denoiseRun (.error m) processorFn ctxSampleRate input options =
        some (.error m)) := by
  obtain ⟨⟨h1, h2, h3, h4, h5⟩, -⟩ := readyInv_run evs
  have hrf : (runReady evs).1.ready = false := h5 m hf
  have hpne : (runReady evs).1.readyPromise ≠ none := by
    intro hn
    have h0 := h2 hn
    rw [h0.2.1] at hf
    cases hf
  obtain ⟨p, hp⟩ := Option.ne_none_iff_exists'.mp hpne
  obtain ⟨hp0, hc1⟩ := h3 p hp
  subst hp0
  refine ⟨hrf, hp, hc1, ?_, ?_⟩
  · simp [readyCall, hrf, hp]
  · intro processorFn ctxSampleRate input options hni
    simp [denoiseRun, hni]

theorem failed_init_sticky_witness :
    denoiseRun (.error "load failed") none 48000 (.float32Array [1]) {} =
      some (.error "load failed") :=
  (failed_init_sticky [.call, .settle false "load failed"] "load failed"
      (by decide)).2.2.2.2 none 48000 (.float32Array [1]) {} (by decide)

/-- C8: after a microphone session has been started, one call to
stopMicrophone increments the stop count of every track of the stored
stream from 0 to exactly 1 and clears the stored stream handle, and a
further stop call changes nothing. -/
theorem stop_microphone_halts_tracks_once (s : MicState) (n : Nat) :
    stopMicrophone (startMicrophone s n) =
      { released := (startMicrophone s n).released ++ [List.replicate n 1],
        activeStream := none } ∧
    stopMicrophone (stopMicrophone (startMicrophone s n)) =
      stopMicrophone (startMicrophone s n) := by
  constructor
  · simp [startMicrophone, stopMicrophone, List.map_replicate]
  · rfl

/-- C7: a Blob or File input whose platform decode fails makes denoise
fail with an error wrapping the underlying decoder message. -/
theorem decode_failure_wrapped (processorFn : Option (List ℚ → List ℚ))
    (ctxSampleRate : Nat) (options : DenoiseOptions) (m : String) :
    denoiseRun (.ok ()) processorFn ctxSampleRate
        (.blobOrFile (.error m)) options =
      some (.error ("Failed to decode audio file: " ++ m)) := by
  rfl

/-- C10: whatever representation the underlying denoise operation
produces, the hook denoise operation resolves with the underlying raw
buffer of that result. -/
theorem hook_result_raw_buffer (initOutcome : Except String Unit)
    (processorFn : Option (List ℚ → List ℚ)) (ctxSampleRate : Nat)
    (input : DenoiseInput) (options : DenoiseOptions) (r : DenoiseOutput)
    (h : denoiseRun initOutcome processorFn ctxSampleRate input options =
      some (.ok r)) :
    denoiseAudio initOutcome processorFn ctxSampleRate input options =
      some (.ok (specUnderlyingBuffer r)) := by
  unfold denoiseAudio
  rw [h]
  cases r <;> rfl

theorem hook_result_raw_buffer_witness :
    denoiseAudio (.ok ()) (some (fun s => s)) 48000 (.float32Array [1]) {} =
      some (.ok (.floatBytes [1])) :=
  hook_result_raw_buffer (.ok ()) (some (fun s => s)) 48000
    (.float32Array [1]) {} (.arrayBuffer [1]) (by rfl)
/-- C3: a null or undefined input, and an input of none of the four
supported shapes, always make denoise fail with an error, whatever the
initialization outcome, processor, platform sample rate and options;
no result is ever produced for them. -/
theorem invalid_input_rejected (initOutcome : Except String Unit)
    (processorFn : Option (List ℚ → List ℚ)) (ctxSampleRate : Nat)
    (options : DenoiseOptions) :
    denoiseRun initOutcome processorFn ctxSampleRate .nullish options =
      some (.error "Invalid input: input cannot be null or undefined") ∧
    (∃ m, denoiseRun initOutcome processorFn ctxSampleRate
      .unsupportedValue options = some (.error m)) := by
  constructor
  · rfl
  · cases initOutcome with
    | error m => exact ⟨m, rfl⟩
    | ok u => exact ⟨"Invalid input type", rfl⟩

/-- C4: whenever normalization of the input yields an empty sample
array, denoise fails with the empty-audio error, and it does so for
every processor value: the engine transform is never consulted. -/
theorem empty_audio_rejected (input : DenoiseInput) (options : DenoiseOptions)
    (ctxSampleRate : Nat) (srOpt : Option Nat)
    (hn : normalizeInput input options ctxSampleRate = some (.ok ([], srOpt))) :
    ∀ processorFn,
      denoiseRun (.ok ()) processorFn ctxSampleRate input options =
        some (.error "Audio data is empty") := by
  intro processorFn
  have hni : input ≠ .nullish := by
    intro h
    rw [h] at hn
    simp [normalizeInput] at hn
  simp [denoiseRun, hni, hn]

theorem empty_audio_rejected_witness :
    denoiseRun (.ok ()) (some (fun s => s)) 48000 (.float32Array []) {} =
      some (.error "Audio data is empty") :=
  empty_audio_rejected (.float32Array []) {} 48000 none rfl (some (fun s => s))

theorem captureLoop_sound (target : Nat) :
    ∀ (frames chunks : List (List ℚ)) (total : Nat) (r : List ℚ),
      total = chunks.flatten.length →
      captureLoop target frames chunks total = some r →
      r = (chunks.flatten ++ frames.flatten).take target ∧ r.length = target := by
  intro frames
  induction frames with
  | nil =>
      intro chunks total r _ h
      cases h
  | cons f rest ih =>
      intro chunks total r hinv h
      by_cases hle : target ≤ total + f.length
      · have hsome : some (((chunks ++ [f]).flatten).take target) = some r := by
          rw [← h]
          simp [captureLoop, hle]
        have hr : ((chunks ++ [f]).flatten).take target = r := Option.some.inj hsome
        have hlen2 : ((chunks ++ [f]).flatten).length = total + f.length := by
          simp [List.flatten_append, hinv]
        constructor
        · have hA : (chunks ++ [f]).flatten = chunks.flatten ++ f := by
            simp
          have hbound : target ≤ (chunks.flatten ++ f).length := by
            rw [← hA, hlen2]
            exact hle
          rw [← hr, List.flatten_cons, ← List.append_assoc,
            List.take_append_of_le_length hbound, hA]
        · rw [← hr, List.length_take, hlen2]
          omega
      · have hrec : captureLoop target rest (chunks ++ [f]) (total + f.length) = some r := by
          rw [← h]
          simp [captureLoop, hle]
        have hinv2 : total + f.length = (chunks ++ [f]).flatten.length := by
          simp [List.flatten_append, hinv]
        obtain ⟨h1, h2⟩ := ih (chunks ++ [f]) (total + f.length) r hinv2 hrec
        refine ⟨?_, h2⟩
        rw [h1]
        simp [List.flatten_append, List.flatten_cons, List.append_assoc]

/-- C5: whenever a live-stream capture resolves, the captured array is
exactly the prefix, of length equal to the sample-count target, of the
concatenation of the delivered frames; the target is the floor of
duration / 1000 times the context sample rate; and a missing duration
option behaves as the default 5000 ms. -/
theorem stream_capture_exact (frames : List (List ℚ))
    (duration ctxSampleRate : Nat) (r : List ℚ)
    (h : captureStreamAudio frames duration ctxSampleRate = some r) :
    r = frames.flatten.take (targetSampleCount duration ctxSampleRate) ∧
    r.length = targetSampleCount duration ctxSampleRate ∧
    targetSampleCount duration ctxSampleRate =
      ⌊((duration : ℚ) / 1000) * ctxSampleRate⌋₊ ∧
    (∀ options : DenoiseOptions, options.duration = none →
      normalizeInput (.mediaStream frames) options ctxSampleRate =
        normalizeInput (.mediaStream frames)
          { options with duration := some 5000 } ctxSampleRate) := by
  have hmain := captureLoop_sound (targetSampleCount duration ctxSampleRate)
    frames [] 0 r rfl h
  refine ⟨by simpa using hmain.1, hmain.2, ?_, ?_⟩
  · have hcast : ((duration : ℚ) / 1000) * ctxSampleRate =
        ((duration * ctxSampleRate : ℕ) : ℚ) / ((1000 : ℕ) : ℚ) := by
      push_cast
      ring
    rw [hcast, Nat.floor_div_eq_div]
    rfl
  · intro options hd
    simp [normalizeInput, hd, jsOrNat]

theorem stream_capture_exact_witness :
    (([1, 2] : List ℚ) =
        ([[1, 2, 3]] : List (List ℚ)).flatten.take (targetSampleCount 1000 2)) ∧
    ([1, 2] : List ℚ).length = targetSampleCount 1000 2 :=
  ⟨(stream_capture_exact [[1, 2, 3]] 1000 2 [1, 2] (by decide)).1,
   (stream_capture_exact [[1, 2, 3]] 1000 2 [1, 2] (by decide)).2.1⟩

theorem wavHeader_length (n sr : Nat) : (wavHeader n sr).length = 44 := rfl

theorem wavBody_length (audioData : List ℚ) :
    ((audioData.map fun s =>
      int16LE (truncToward0 (clipSample s * 32767))).flatten).length =
      2 * audioData.length := by
  induction audioData with
  | nil => rfl
  | cons a t ih =>
      have hl : (int16LE (truncToward0 (clipSample a * 32767))).length = 2 := rfl
      simp only [List.map_cons, List.flatten_cons, List.length_append,
        List.length_cons, hl, ih]
      omega

theorem createWavFile_length (audioData : List ℚ) (sr : Nat) :
    (createWavFile audioData sr).length = 44 + 2 * audioData.length := by
  unfold createWavFile
  rw [List.length_append, wavHeader_length, wavBody_length]

theorem createWavFile_take4 (audioData : List ℚ) (sr : Nat) :
    (createWavFile audioData sr).take 4 = [82, 73, 70, 70] := rfl

theorem createWavFile_drop44 (audioData : List ℚ) (sr : Nat) :
    (createWavFile audioData sr).drop 44 =
      (audioData.map fun s =>
        int16LE (truncToward0 (clipSample s * 32767))).flatten := rfl

theorem createWavFile_rate_bytes (audioData : List ℚ) (sr : Nat) :
    ((createWavFile audioData sr).drop 24).take 4 = uint32LE sr := rfl

theorem denoiseRun_blob_inversion (initOutcome : Except String Unit)
    (processorFn : Option (List ℚ → List ℚ)) (ctxSampleRate : Nat)
    (input : DenoiseInput) (options : DenoiseOptions) (r : DenoiseOutput)
    (hrt : options.returnType = some .blob)
    (h : denoiseRun initOutcome processorFn ctxSampleRate input options =
      some (.ok r)) :
    ∃ audioData srOpt f,
      normalizeInput input options ctxSampleRate =
        some (.ok (audioData, srOpt)) ∧
      processorFn = some f ∧
      r = .blob (createWavFile (f audioData) (jsOrNat srOpt 48000)) := by
  by_cases hnull : input = .nullish
  · rw [hnull] at h
    simp [denoiseRun] at h
  · unfold denoiseRun at h
    rw [if_neg hnull] at h
    cases initOutcome with
    | error m => simp at h
    | ok u =>
        cases hn : normalizeInput input options ctxSampleRate with
        | none =>
            rw [hn] at h
            simp at h
        | some res =>
            cases res with
            | error e =>
                rw [hn] at h
                simp at h
            | ok pr =>
                obtain ⟨audioData, srOpt⟩ := pr
                rw [hn] at h
                by_cases hlen : audioData.length = 0
                · simp [hlen] at h
                · cases processorFn with
                  | none => simp [hlen] at h
                  | some f =>
                      simp [hlen, hrt] at h
                      exact ⟨audioData, srOpt, f, rfl, rfl, h.symm⟩

theorem normalizeInput_rate (input : DenoiseInput) (options : DenoiseOptions)
    (ctxSampleRate : Nat) (audioData : List ℚ) (srOpt : Option Nat)
    (hn : normalizeInput input options ctxSampleRate =
      some (.ok (audioData, srOpt))) :
    srOpt = decodedOrOverrideRate input options := by
  cases input with
  | arrayBuffer s =>
      simp [normalizeInput] at hn
      exact hn.2.symm
  | float32Array s =>
      simp [normalizeInput] at hn
      exact hn.2.symm
  | blobOrFile dec =>
      cases dec with
      | error e => simp [normalizeInput] at hn
      | ok pr =>
          obtain ⟨s, sr⟩ := pr
          simp [normalizeInput] at hn
          exact hn.2.symm
  | mediaStream frames =>
      cases hc : captureStreamAudio frames (jsOrNat options.duration 5000)
          ctxSampleRate with
      | none =>
          rw [normalizeInput, hc] at hn
          simp at hn
      | some samples =>
          rw [normalizeInput, hc] at hn
          simp at hn
          exact hn.2.symm
  | nullish => simp [normalizeInput] at hn
  | unsupportedValue => simp [normalizeInput] at hn

/-- C2: createWavFile output is a fixed 44-byte header opening with the
ASCII RIFF tag, followed by exactly one 16-bit little-endian PCM sample
per input sample, each first clipped to [-1, 1] and then scaled by
0x7FFF; and every blob result of denoiseRun is such a buffer. -/
theorem blob_output_wav_layout (audioData : List ℚ) (sr : Nat) :
    (createWavFile audioData sr).length = 44 + 2 * audioData.length ∧
    (createWavFile audioData sr).take 4 = [82, 73, 70, 70] ∧
    (createWavFile audioData sr).drop 44 =
      (audioData.map fun s =>
        let v := truncToward0 (max (-1) (min 1 s) * 32767)
        [(v % 65536).toNat % 256, (v % 65536).toNat / 256]).flatten ∧
    (∀ initOutcome processorFn ctxSampleRate input options r,
      options.returnType = some .blob →
      denoiseRun initOutcome processorFn ctxSampleRate input options =
        some (.ok r) →
      ∃ samples rate, r = .blob (createWavFile samples rate)) := by
  refine ⟨createWavFile_length audioData sr, createWavFile_take4 audioData sr,
    createWavFile_drop44 audioData sr, ?_⟩
  intro initOutcome processorFn ctxSampleRate input options r hrt h
  obtain ⟨samples, srOpt, f, -, -, hb⟩ :=
    denoiseRun_blob_inversion initOutcome processorFn ctxSampleRate
      input options r hrt h
  exact ⟨f samples, jsOrNat srOpt 48000, hb⟩

theorem blob_output_wav_layout_witness :
    ∃ samples rate,
      DenoiseOutput.blob (createWavFile [1] 48000) =
        .blob (createWavFile samples rate) :=
  (blob_output_wav_layout [] 0).2.2.2 (.ok ()) (some (fun s => s)) 48000
    (.float32Array [1]) { returnType := some .blob }
    (.blob (createWavFile [1] 48000)) rfl rfl

/-- C6 as stated is violated at a concrete input: with blob output, a
non-file input and a caller-supplied sample-rate override of 0, the
produced header declares 48000 at byte offset 24, not the overridden
rate 0. -/
theorem header_rate_zero_override_cex :
    denoiseRun (.ok ()) (some (fun s => s)) 48000 (.float32Array [1])
        { sampleRate := some 0, returnType := some .blob } =
      some (.ok (.blob (createWavFile [1] 48000))) ∧
    ((createWavFile [1] 48000).drop 24).take 4 = [128, 187, 0, 0] ∧
    uint32LE 0 = [0, 0, 0, 0] ∧
    [128, 187, 0, 0] ≠ [0, 0, 0, 0] := by
  refine ⟨rfl, rfl, rfl, by decide⟩

/-- C6 (amended): for every blob result of denoise, the sample rate
declared in the header equals the decoded sample rate for a decoded
Blob or File input and otherwise the caller-supplied override, with
fallback 48000 when the rate so obtained is absent or zero. -/
theorem header_rate_matches_effective (processorFn : Option (List ℚ → List ℚ))
    (ctxSampleRate : Nat) (input : DenoiseInput) (options : DenoiseOptions)
    (b : List Nat)
    (hrt : options.returnType = some .blob)
    (h : denoiseRun (.ok ()) processorFn ctxSampleRate input options =
      some (.ok (.blob b))) :
    (b.drop 24).take 4 = uint32LE (effectiveHeaderRate input options) := by
  obtain ⟨audioData, srOpt, f, hn, hpf, hb⟩ :=
    denoiseRun_blob_inversion (.ok ()) processorFn ctxSampleRate input
      options (.blob b) hrt h
  have hb2 : b = createWavFile (f audioData) (jsOrNat srOpt 48000) := by
    injection hb
  have hsr := normalizeInput_rate input options ctxSampleRate audioData srOpt hn
  rw [hb2, createWavFile_rate_bytes]
  unfold effectiveHeaderRate
  rw [hsr]

theorem header_rate_matches_effective_witness :
    ((createWavFile [1] 44100).drop 24).take 4 =
      uint32LE (effectiveHeaderRate (.float32Array [1])
        { sampleRate := some 44100, returnType := some .blob }) :=
  header_rate_matches_effective (some (fun s => s)) 48000 (.float32Array [1])
    { sampleRate := some 44100, returnType := some .blob }
    (createWavFile [1] 44100) rfl rfl

end Denoise
